import Mathlib

/-!
Shallow embedding of the messaging application core:
the SQL schema with its row-level security policies and triggers
(supabase/migrations), the message store operations
(src/stores/messageStore.ts), and the conversation store operations
(conversationStore, bundled in src/components/ChatLayout.tsx).

Machine conventions: uuids generated by the database are modelled as
counters (nextConvId, nextMsgId); timestamps are naturals read off a
clock field that advances by one after every mutating statement, so
that now() is monotone across operations, as wall-clock time is.
-/

namespace MessagingApp

abbrev UserId := Nat
abbrev ConvId := Nat
abbrev MsgId := Nat
abbrev Time := Nat

/-- Row of the profiles table (id, username, full_name; the columns the
claims touch). The username column is modelled as present, as every
client write path supplies it. -/
structure Profile where
  id : UserId
  username : String
  full_name : String
  deriving Repr, DecidableEq

/-- Row of the conversations table. -/
structure Conversation where
  id : ConvId
  is_group : Bool
  created_at : Time
  updated_at : Time
  deriving Repr, DecidableEq

/-- Row of the conversation_participants table; primary key is the pair
(conversation_id, user_id). -/
structure Participant where
  conversation_id : ConvId
  user_id : UserId
  deriving Repr, DecidableEq

/-- The message type tag column. -/
inductive MsgType where
  | text
  | image
  | file
  | audio
  deriving Repr, DecidableEq

/-- Row of the messages table. -/
structure Message where
  id : MsgId
  conversation_id : ConvId
  user_id : UserId
  content : String
  type : MsgType
  read : Bool
  created_at : Time
  deriving Repr, DecidableEq

/-- Database state: the four tables, the statement clock, and the
uuid-generator counters. -/
structure DB where
  profiles : List Profile
  conversations : List Conversation
  participants : List Participant
  messages : List Message
  clock : Time
  nextConvId : ConvId
  nextMsgId : MsgId
  deriving Repr, DecidableEq

/-- Errors surfaced by the persistence layer. usernameExists is the
message of the RAISE EXCEPTION in check_username_unique; the others
stand for the constraint and policy violations the backend reports. -/
inductive DBError where
  | noUser
  | usernameExists
  | uniqueViolation
  | checkViolation
  | pkViolation
  | fkViolation
  | rlsViolation
  deriving Repr, DecidableEq

/-- The error.message string attached to each failure, as the client
stores it. -/
def errorMessage : DBError → String
  | .noUser => "No user found"
  | .usernameExists => "Username already exists"
  | .uniqueViolation => "duplicate key value violates unique constraint"
  | .checkViolation => "check constraint violated"
  | .pkViolation => "duplicate key value violates primary key"
  | .fkViolation => "foreign key constraint violated"
  | .rlsViolation => "new row violates row-level security policy"

/-- EXISTS (SELECT 1 FROM conversation_participants WHERE
conversation_id = c AND user_id = u). -/
def isParticipant (db : DB) (u : UserId) (c : ConvId) : Bool :=
  db.participants.any (fun p => p.conversation_id == c && p.user_id == u)

/-- One character of the class [a-zA-Z0-9_]. -/
def isWordChar (c : Char) : Bool :=
  (Char.ofNat 97 ≤ c && c ≤ Char.ofNat 122) ||
  (Char.ofNat 65 ≤ c && c ≤ Char.ofNat 90) ||
  (Char.ofNat 48 ≤ c && c ≤ Char.ofNat 57) ||
  c == Char.ofNat 95

/-- The profiles_username_check constraint: username matches the
anchored pattern of 3 to 20 word characters. -/
def matchesUsernamePattern (s : String) : Bool :=
  3 ≤ s.length && s.length ≤ 20 && s.toList.all isWordChar

/-- LOWER of one character on the ASCII range, the alphabet the
username check constraint admits. -/
def lowerChar (c : Char) : Char :=
  if 65 ≤ c.toNat ∧ c.toNat ≤ 90 then Char.ofNat (c.toNat + 32) else c

/-- LOWER of a string, character by character. -/
def stringLower (s : String) : String :=
  ⟨s.data.map lowerChar⟩

/-- Body of the check_username_unique trigger: another profile row
(id different from the written row) has an equal username under
case-insensitive comparison. -/
def usernameConflict (db : DB) (id : UserId) (username : String) : Bool :=
  db.profiles.any (fun p => stringLower p.username == stringLower username && p.id != id)

/-- INSERT INTO profiles: the BEFORE trigger check_username_unique runs
first, then the check constraint, the unique constraint on username and
the primary key. -/
def insertProfile (db : DB) (p : Profile) : Except DBError DB :=
  if usernameConflict db p.id p.username then .error .usernameExists
  else if !matchesUsernamePattern p.username then .error .checkViolation
  else if db.profiles.any (fun q => q.username == p.username) then .error .uniqueViolation
  else if db.profiles.any (fun q => q.id == p.id) then .error .pkViolation
  else .ok { db with profiles := db.profiles ++ [p], clock := db.clock + 1 }

/-- UPDATE profiles SET username, full_name WHERE id = caller. The RLS
policy Users can update own profile restricts the update to the
own row of the caller; when the caller has no row the statement updates zero
rows and succeeds. On a touched row the BEFORE trigger runs, then the
constraints. -/
def updateProfile (db : DB) (caller : UserId) (username full_name : String) :
    Except DBError DB :=
  if db.profiles.any (fun q => q.id == caller) then
    if usernameConflict db caller username then .error .usernameExists
    else if !matchesUsernamePattern username then .error .checkViolation
    else if db.profiles.any (fun q => q.username == username && q.id != caller) then
      .error .uniqueViolation
    else .ok { db with
      profiles := db.profiles.map (fun q =>
        if q.id == caller then { q with username := username, full_name := full_name } else q),
      clock := db.clock + 1 }
  else .ok { db with clock := db.clock + 1 }

/-- The state of a failed statement: the database is left unchanged. -/
def runInsertProfile (db : DB) (p : Profile) : DB :=
  match insertProfile db p with
  | .ok db2 => db2
  | .error _ => db

/-- The state of a failed update statement: the database is left
unchanged. -/
def runUpdateProfile (db : DB) (caller : UserId) (username full_name : String) : DB :=
  match updateProfile db caller username full_name with
  | .ok db2 => db2
  | .error _ => db

/-- A message draft as built by the client (Partial of Message):
handleSend supplies content, conversation_id, user_id, type and a
client-side created_at; the created_at field is optional because the
column has a database default of now(). -/
structure MessageDraft where
  conversation_id : ConvId
  user_id : UserId
  content : String
  type : MsgType
  created_at : Option Time
  deriving Repr, DecidableEq

/-- INSERT INTO messages. The RLS insert policy Users can send messages
to their conversations checks that the authenticated caller is a
participant of the target conversation; the foreign keys check the
conversation and the sender profile; created_at defaults to now() when
the draft does not carry one. The AFTER trigger
update_conversation_timestamp then sets the updated_at of the owning conversation to now(). Returns the stored row and the new state. -/
def insertMessage (db : DB) (auth : Option UserId) (d : MessageDraft) :
    Except DBError (Message × DB) :=
  match auth with
  | none => .error .rlsViolation
  | some u =>
    if !isParticipant db u d.conversation_id then .error .rlsViolation
    else if !db.conversations.any (fun c => c.id == d.conversation_id) then .error .fkViolation
    else if !db.profiles.any (fun p => p.id == d.user_id) then .error .fkViolation
    else
      let row : Message := {
        id := db.nextMsgId
        conversation_id := d.conversation_id
        user_id := d.user_id
        content := d.content
        type := d.type
        read := false
        created_at := d.created_at.getD db.clock }
      .ok (row, { db with
        messages := db.messages ++ [row]
        conversations := db.conversations.map (fun c =>
          if c.id == d.conversation_id then { c with updated_at := db.clock } else c)
        nextMsgId := db.nextMsgId + 1
        clock := db.clock + 1 })

/-- Batch INSERT INTO conversation_participants: one statement, so it
succeeds or fails as a whole. The insert policy is WITH CHECK (true);
the foreign keys and the composite primary key are checked. -/
def insertParticipants (db : DB) (rows : List Participant) : Except DBError DB :=
  if !rows.all (fun r => db.conversations.any (fun c => c.id == r.conversation_id)) then
    .error .fkViolation
  else if !rows.all (fun r => db.profiles.any (fun p => p.id == r.user_id)) then
    .error .fkViolation
  else if ((db.participants ++ rows).map (fun r => (r.conversation_id, r.user_id))).Nodup then
    .ok { db with participants := db.participants ++ rows, clock := db.clock + 1 }
  else .error .pkViolation

/-- createConversation from the conversation store: resolve the caller,
append the caller to the given participant ids, insert a conversation
row with is_group set when the list is longer than two, then insert the
participant rows. The two inserts are separate statements: when the
second fails the conversation row stays behind, and the thrown error is
returned instead of an identifier. -/
def createConversation (db : DB) (auth : Option UserId) (participantIds : List UserId) :
    DB × Except DBError ConvId :=
  match auth with
  | none => (db, .error .noUser)
  | some uid =>
    let allParticipants := participantIds ++ [uid]
    let conv : Conversation := {
      id := db.nextConvId
      is_group := decide (allParticipants.length > 2)
      created_at := db.clock
      updated_at := db.clock }
    let db1 : DB := { db with
      conversations := db.conversations ++ [conv]
      nextConvId := db.nextConvId + 1
      clock := db.clock + 1 }
    let rows := allParticipants.map (fun u => ⟨conv.id, u⟩)
    match insertParticipants db1 rows with
    | .error e => (db1, .error e)
    | .ok db2 => (db2, .ok conv.id)

/-- SELECT * FROM messages WHERE conversation_id = cid ORDER BY
created_at ASC, under the read policy Users can read messages in their
conversations: only rows of conversations the caller participates in
are visible. -/
def fetchMessages (db : DB) (auth : Option UserId) (cid : ConvId) : List Message :=
  match auth with
  | none => []
  | some u =>
    List.insertionSort (fun a b => a.created_at ≤ b.created_at)
      (db.messages.filter (fun m =>
        m.conversation_id == cid && isParticipant db u m.conversation_id))

/-- Client-side message store state (messages, loading, error). -/
structure MessageStore where
  messages : List Message
  loading : Bool
  error : Option String
  deriving Repr, DecidableEq

/-- sendMessage from the message store: insert the draft; on success
append the returned stored row to the in-memory list; on failure record
the error message and leave the list alone. The promise always resolves
(the catch swallows the exception), so the embedding is a total
function. -/
def sendMessage (db : DB) (auth : Option UserId) (st : MessageStore) (d : MessageDraft) :
    DB × MessageStore :=
  match insertMessage db auth d with
  | .ok (row, db2) => (db2, { st with messages := st.messages ++ [row] })
  | .error e => (db, { st with error := some (errorMessage e) })

/-- fetchMessages from the message store: replace the list with the
query result, clear the error, drop the loading flag. -/
def fetchMessagesStore (db : DB) (auth : Option UserId) (st : MessageStore) (cid : ConvId) :
    MessageStore :=
  { st with messages := fetchMessages db auth cid, error := none, loading := false }

/-- One directory entry as the conversation store query shapes it: the
conversation row, the participant profiles, and the rows the embedded
resource aliased last_message actually returns. The select clause
last_message:messages(*) only renames the messages relation, so every
message of the conversation comes back, not just the most recent. -/
structure ConversationView where
  conv : Conversation
  participants : List Profile
  last_message : List Message
  deriving Repr, DecidableEq

/-- The participant profiles of a conversation, as the embedded select
conversation_participants(user:profiles(*)) returns them after the
client maps each edge to its profile. -/
def convParticipantProfiles (db : DB) (cid : ConvId) : List Profile :=
  (db.participants.filter (fun p => p.conversation_id == cid)).filterMap
    (fun p => db.profiles.find? (fun q => q.id == p.user_id))

/-- fetchConversations from the conversation store: resolve the caller
(error No user found otherwise), read the conversations visible under
the policy Users can read conversations they are part of, order by
updated_at descending, and enrich each row with its participant
profiles and the embedded messages. -/
def fetchConversations (db : DB) (auth : Option UserId) :
    Except DBError (List ConversationView) :=
  match auth with
  | none => .error .noUser
  | some u =>
    let visible := db.conversations.filter (fun c => isParticipant db u c.id)
    let sorted := List.insertionSort (fun a b => b.updated_at ≤ a.updated_at) visible
    .ok (sorted.map (fun c => {
      conv := c
      participants := convParticipantProfiles db c.id
      last_message := db.messages.filter (fun m => m.conversation_id == c.id) }))

/-! Concrete states used to instantiate and to refute the claims. -/

/-- A state with two profiles and one conversation whose only
participant is profile 0. -/
def dbA : DB := {
  profiles := [⟨0, "alice", "Alice"⟩, ⟨1, "bob", "Bob"⟩]
  conversations := [⟨10, false, 0, 0⟩]
  participants := [⟨10, 0⟩]
  messages := []
  clock := 1
  nextConvId := 11
  nextMsgId := 0 }

/-- A draft whose sender field names profile 1, which is not a
participant of conversation 10. -/
def draftSpoofed : MessageDraft := ⟨10, 1, "hi", .text, none⟩

/-! ## C1 — sender membership on the message insert path -/

/-- C1 counterexample. The insert policy only checks the authenticated
caller, never the user_id column of the new row: with caller 0 (a
participant of conversation 10) a message whose sender field is profile
1 is accepted although profile 1 is not a participant. -/
theorem C1_counterexample :
    (insertMessage dbA (some 0) draftSpoofed).isOk = true ∧
    draftSpoofed.user_id = 1 ∧
    isParticipant dbA 1 draftSpoofed.conversation_id = false := by
  decide

/-- C1 (amended): every message row accepted by the insert path has an
authenticated caller who is a participant of the target conversation at
the time of the write, and an insert whose caller is not a participant
is rejected by the row-level policy; the user_id column of the row is
not constrained to be a participant. -/
theorem C1_caller_must_participate :
    (∀ (db : DB) (auth : Option UserId) (d : MessageDraft) (r : Message × DB),
      insertMessage db auth d = .ok r →
      ∃ u, auth = some u ∧ isParticipant db u d.conversation_id = true) ∧
    (∀ (db : DB) (u : UserId) (d : MessageDraft),
      isParticipant db u d.conversation_id = false →
      insertMessage db (some u) d = .error .rlsViolation) := by
  constructor
  · intro db auth d r h
    cases auth with
    | none => simp [insertMessage] at h
    | some u =>
      cases hp : isParticipant db u d.conversation_id with
      | true => exact ⟨u, rfl, hp⟩
      | false => simp [insertMessage, hp] at h
  · intro db u d hp
    simp [insertMessage, hp]

/-- Witness for C1: the amended theorem applied at a concrete accepted
insert. -/
theorem C1_caller_must_participate_witness :
    ∃ u, (some 0 : Option UserId) = some u ∧
      isParticipant dbA u draftSpoofed.conversation_id = true :=
  C1_caller_must_participate.1 dbA (some 0) draftSpoofed
    (⟨0, 10, 1, "hi", .text, false, 1⟩,
      { dbA with
        messages := [⟨0, 10, 1, "hi", .text, false, 1⟩]
        conversations := [⟨10, false, 0, 1⟩]
        clock := 2
        nextMsgId := 1 })
    (by rfl)

/-! ## C2 — case-insensitive username uniqueness -/

/-- C2: writing a profile whose username equals, case-insensitively,
the username of a distinct existing profile fails with the specific
usernameExists error raised by the check_username_unique trigger (not a
generic failure), and the failed statement leaves the table unchanged;
this covers both the insert of a new profile and the rename of an
existing one. -/
theorem C2_username_uniqueness :
    ∀ (db : DB) (p2 : Profile), p2 ∈ db.profiles →
      (∀ (p : Profile), p.id ≠ p2.id →
        stringLower p.username = stringLower p2.username →
        insertProfile db p = .error .usernameExists ∧ runInsertProfile db p = db) ∧
      (∀ (p1 : Profile), p1 ∈ db.profiles → p1.id ≠ p2.id →
        ∀ (u fn : String), stringLower u = stringLower p2.username →
          updateProfile db p1.id u fn = .error .usernameExists ∧
          runUpdateProfile db p1.id u fn = db) := by
  intro db p2 hp2
  have conflict : ∀ (id : UserId) (u : String),
      id ≠ p2.id → stringLower u = stringLower p2.username →
      usernameConflict db id u = true := by
    intro id u hne hlow
    simp only [usernameConflict, List.any_eq_true]
    exact ⟨p2, hp2, by simp [hlow, bne_iff_ne, Ne.symm hne]⟩
  constructor
  · intro p hne hlow
    have hc := conflict p.id p.username hne hlow
    constructor
    · simp [insertProfile, hc]
    · simp [runInsertProfile, insertProfile, hc]
  · intro p1 hp1 hne u fn hlow
    have hc := conflict p1.id u hne hlow
    have hrow : db.profiles.any (fun q => q.id == p1.id) = true := by
      simp only [List.any_eq_true]
      exact ⟨p1, hp1, by simp⟩
    constructor
    · simp [updateProfile, hrow, hc]
    · simp [runUpdateProfile, updateProfile, hrow, hc]

/-- Witness for C2: against the state dbA, inserting a third profile
named Alice (capitalised) and renaming profile 1 to ALICE both fail
with the usernameExists error and leave the state unchanged. -/
theorem C2_username_uniqueness_witness :
    (insertProfile dbA ⟨2, "Alice", "X"⟩ = .error .usernameExists ∧
      runInsertProfile dbA ⟨2, "Alice", "X"⟩ = dbA) ∧
    (updateProfile dbA 1 "ALICE" "Bob" = .error .usernameExists ∧
      runUpdateProfile dbA 1 "ALICE" "Bob" = dbA) :=
  ⟨(C2_username_uniqueness dbA ⟨0, "alice", "Alice"⟩ (by decide)).1
      ⟨2, "Alice", "X"⟩ (by decide) (by decide),
    (C2_username_uniqueness dbA ⟨0, "alice", "Alice"⟩ (by decide)).2
      ⟨1, "bob", "Bob"⟩ (by decide) (by decide) "ALICE" "Bob" (by decide)⟩

/-! ## C9 — username pattern -/

/-- C9: every username accepted for persistence matches the pattern of
3 to 20 word characters, and a username outside the pattern is rejected
at persistence — for the insert of a profile and for the rename of an
existing profile row. -/
theorem C9_username_pattern :
    (∀ (db : DB) (p : Profile) (db2 : DB), insertProfile db p = .ok db2 →
      matchesUsernamePattern p.username = true) ∧
    (∀ (db : DB) (caller : UserId) (u fn : String) (db2 : DB),
      db.profiles.any (fun q => q.id == caller) = true →
      updateProfile db caller u fn = .ok db2 →
      matchesUsernamePattern u = true) ∧
    (∀ (db : DB) (p : Profile) (db2 : DB), matchesUsernamePattern p.username = false →
      insertProfile db p ≠ .ok db2) ∧
    (∀ (db : DB) (caller : UserId) (u fn : String) (db2 : DB),
      db.profiles.any (fun q => q.id == caller) = true →
      matchesUsernamePattern u = false →
      updateProfile db caller u fn ≠ .ok db2) := by
  have insAux : ∀ (db : DB) (p : Profile) (db2 : DB),
      matchesUsernamePattern p.username = false → insertProfile db p ≠ .ok db2 := by
    intro db p db2 hm h
    cases hc : usernameConflict db p.id p.username with
    | true => simp [insertProfile, hc] at h
    | false => simp [insertProfile, hc, hm] at h
  have updAux : ∀ (db : DB) (caller : UserId) (u fn : String) (db2 : DB),
      db.profiles.any (fun q => q.id == caller) = true →
      matchesUsernamePattern u = false → updateProfile db caller u fn ≠ .ok db2 := by
    intro db caller u fn db2 hrow hm h
    cases hc : usernameConflict db caller u with
    | true => simp [updateProfile, hrow, hc] at h
    | false => simp [updateProfile, hrow, hc, hm] at h
  refine ⟨?_, ?_, insAux, updAux⟩
  · intro db p db2 h
    cases hm : matchesUsernamePattern p.username with
    | true => rfl
    | false => exact absurd h (insAux db p db2 hm)
  · intro db caller u fn db2 hrow h
    cases hm : matchesUsernamePattern u with
    | true => rfl
    | false => exact absurd h (updAux db caller u fn db2 hrow hm)

/-- Witness for C9: a valid three-character username is accepted into
an empty table and matches the pattern; the two-character username ab
is rejected by the rename path on dbA. -/
theorem C9_username_pattern_witness :
    matchesUsernamePattern "abc" = true ∧
    updateProfile dbA 0 "ab" "Alice" ≠ .ok dbA :=
  ⟨C9_username_pattern.1
      { profiles := [], conversations := [], participants := [], messages := [],
        clock := 0, nextConvId := 0, nextMsgId := 0 }
      ⟨0, "abc", "A"⟩
      { profiles := [⟨0, "abc", "A"⟩], conversations := [], participants := [],
        messages := [], clock := 1, nextConvId := 0, nextMsgId := 0 }
      (by rfl),
    C9_username_pattern.2.2.2 dbA 0 "ab" "Alice" dbA (by rfl) (by rfl)⟩

/-! ## C10 — sendMessage failure path -/

/-- C10: when the insert of a draft fails, sendMessage leaves the
in-memory message list unchanged, records the failure message in the
error field of the store, and returns normally (the embedding is a
total function because the catch swallows the exception). -/
theorem C10_send_failure :
    ∀ (db : DB) (auth : Option UserId) (st : MessageStore) (d : MessageDraft)
      (e : DBError), insertMessage db auth d = .error e →
      sendMessage db auth st d = (db, { st with error := some (errorMessage e) }) ∧
      (sendMessage db auth st d).2.messages = st.messages ∧
      (sendMessage db auth st d).2.error = some (errorMessage e) := by
  intro db auth st d e h
  simp [sendMessage, h]

/-- Witness for C10: sending the draft of conversation 10 as profile 1,
which is not a participant, fails and the store keeps its message list
while recording the policy error. -/
theorem C10_send_failure_witness :
    sendMessage dbA (some 1) ⟨[], false, none⟩ draftSpoofed =
      (dbA, { messages := [], loading := false,
              error := some (errorMessage .rlsViolation) }) ∧
    (sendMessage dbA (some 1) ⟨[], false, none⟩ draftSpoofed).2.messages = [] ∧
    (sendMessage dbA (some 1) ⟨[], false, none⟩ draftSpoofed).2.error =
      some (errorMessage .rlsViolation) :=
  C10_send_failure dbA (some 1) ⟨[], false, none⟩ draftSpoofed .rlsViolation (by rfl)

/-- Characterisation of a successful message insert: the caller is a
participant, the stored row takes the fields of the draft with the next
fresh identifier and the clock as the default creation time, and the
new state appends the row, bumps the updated_at of the owning conversation,
and advances the counters. -/
theorem insertMessage_ok_spec (db : DB) (u : UserId) (d : MessageDraft)
    (row : Message) (db2 : DB)
    (h : insertMessage db (some u) d = .ok (row, db2)) :
    isParticipant db u d.conversation_id = true ∧
    row = ⟨db.nextMsgId, d.conversation_id, d.user_id, d.content, d.type, false,
      d.created_at.getD db.clock⟩ ∧
    db2 = { db with
      messages := db.messages ++ [row]
      conversations := db.conversations.map (fun c =>
        if c.id == d.conversation_id then { c with updated_at := db.clock } else c)
      nextMsgId := db.nextMsgId + 1
      clock := db.clock + 1 } := by
  cases hp : isParticipant db u d.conversation_id with
  | false => simp [insertMessage, hp] at h
  | true =>
    cases hcv : db.conversations.any (fun c => c.id == d.conversation_id) with
    | false => simp [insertMessage, hp, hcv] at h
    | true =>
      cases hpr : db.profiles.any (fun p => p.id == d.user_id) with
      | false => simp [insertMessage, hp, hcv, hpr] at h
      | true =>
        simp only [insertMessage, hp, hcv, hpr, Bool.not_true, Bool.false_eq_true,
          if_false, Except.ok.injEq, Prod.mk.injEq] at h
        obtain ⟨hrow, hdb2⟩ := h
        subst hrow
        exact ⟨rfl, rfl, hdb2.symm⟩

/-! ## C5 — directory enrichment and the last_message embed -/

/-- A state whose single conversation holds two messages. -/
def dbTwoMsgs : DB := {
  profiles := [⟨0, "alice", "Alice"⟩]
  conversations := [⟨10, false, 0, 0⟩]
  participants := [⟨10, 0⟩]
  messages := [⟨0, 10, 0, "m1", .text, false, 1⟩, ⟨1, 10, 0, "m2", .text, false, 2⟩]
  clock := 3
  nextConvId := 11
  nextMsgId := 2 }

/-- C5 failing input, evaluated: the select clause
last_message:messages(*) only renames the embedded messages relation,
so the directory entry for a conversation with two messages carries
both of them under last_message — not at most one most-recent message,
contradicting the claim and the Conversation type of the client itself, which
declares last_message as a single optional message. The participant
profiles are enriched as described. -/
theorem C5_last_message_returns_all :
    ∃ v : ConversationView, fetchConversations dbTwoMsgs (some 0) = .ok [v] ∧
      v.participants = [⟨0, "alice", "Alice"⟩] ∧
      v.last_message.length = 2 :=
  ⟨⟨⟨10, false, 0, 0⟩, [⟨0, "alice", "Alice"⟩],
      [⟨0, 10, 0, "m1", .text, false, 1⟩, ⟨1, 10, 0, "m2", .text, false, 2⟩]⟩,
    rfl, rfl, rfl⟩

/-! ## C6 — the conversation timestamp trigger -/

/-- The state dbA after a message carrying the client-supplied
creation time 100 is inserted at clock 1. -/
def dbAfterFutureMsg : DB := {
  profiles := [⟨0, "alice", "Alice"⟩, ⟨1, "bob", "Bob"⟩]
  conversations := [⟨10, false, 0, 1⟩]
  participants := [⟨10, 0⟩]
  messages := [⟨0, 10, 0, "a", .text, false, 100⟩]
  clock := 2
  nextConvId := 11
  nextMsgId := 1 }

/-- C6 counterexample. Drafts carry a client-supplied created_at, so a
message dated in the future (created at 100 while the clock reads 1)
can enter conversation 10; the next insert then sets the updated_at of the conversation to the current time 2, which is smaller than the creation
timestamp 100 of the previously most recent message — refuting the
claimed bound. -/
theorem C6_counterexample :
    insertMessage dbA (some 0) ⟨10, 0, "a", .text, some 100⟩ =
      .ok (⟨0, 10, 0, "a", .text, false, 100⟩, dbAfterFutureMsg) ∧
    ∃ r2 : Message × DB,
      insertMessage dbAfterFutureMsg (some 0) ⟨10, 0, "b", .text, none⟩ = .ok r2 ∧
      (∀ c ∈ r2.2.conversations, c.id = 10 → c.updated_at = 2) ∧
      (∃ m ∈ dbAfterFutureMsg.messages, m.conversation_id = 10 ∧ 2 < m.created_at) :=
  ⟨rfl,
    ⟨(⟨1, 10, 0, "b", .text, false, 2⟩,
      { dbAfterFutureMsg with
        messages := dbAfterFutureMsg.messages ++ [⟨1, 10, 0, "b", .text, false, 2⟩]
        conversations := [⟨10, false, 0, 2⟩]
        clock := 3
        nextMsgId := 2 }),
      rfl, by decide, by decide⟩⟩

/-- A successful profile insert does not touch the conversations
table. -/
theorem insertProfile_conversations (db : DB) (p : Profile) (db2 : DB)
    (h : insertProfile db p = .ok db2) : db2.conversations = db.conversations := by
  cases hc : usernameConflict db p.id p.username with
  | true => simp [insertProfile, hc] at h
  | false =>
    cases hm : matchesUsernamePattern p.username with
    | false => simp [insertProfile, hc, hm] at h
    | true =>
      cases hu : db.profiles.any (fun q => q.username == p.username) with
      | true => simp [insertProfile, hc, hm, hu] at h
      | false =>
        cases hk : db.profiles.any (fun q => q.id == p.id) with
        | true => simp [insertProfile, hc, hm, hu, hk] at h
        | false =>
          simp only [insertProfile, hc, hm, hu, hk, Bool.not_true, Bool.false_eq_true,
            if_false, if_true, Except.ok.injEq] at h
          rw [← h]

/-- A successful profile update does not touch the conversations
table. -/
theorem updateProfile_conversations (db : DB) (caller : UserId) (u fn : String) (db2 : DB)
    (h : updateProfile db caller u fn = .ok db2) : db2.conversations = db.conversations := by
  cases hrow : db.profiles.any (fun q => q.id == caller) with
  | false =>
    simp only [updateProfile, hrow, Bool.false_eq_true, if_false, Except.ok.injEq] at h
    rw [← h]
  | true =>
    cases hc : usernameConflict db caller u with
    | true => simp [updateProfile, hrow, hc] at h
    | false =>
      cases hm : matchesUsernamePattern u with
      | false => simp [updateProfile, hrow, hc, hm] at h
      | true =>
        cases hu : db.profiles.any (fun q => q.username == u && q.id != caller) with
        | true => simp [updateProfile, hrow, hc, hm, hu] at h
        | false =>
          simp only [updateProfile, hrow, hc, hm, hu, Bool.not_true, Bool.false_eq_true,
            if_false, if_true, Except.ok.injEq] at h
          rw [← h]

/-- A successful participant insert only appends participant rows. -/
theorem insertParticipants_ok (db : DB) (rows : List Participant) (db2 : DB)
    (h : insertParticipants db rows = .ok db2) :
    db2 = { db with participants := db.participants ++ rows, clock := db.clock + 1 } := by
  cases h1 : rows.all (fun r => db.conversations.any (fun c => c.id == r.conversation_id)) with
  | false => simp [insertParticipants, h1] at h
  | true =>
    cases h2 : rows.all (fun r => db.profiles.any (fun p => p.id == r.user_id)) with
    | false => simp [insertParticipants, h1, h2] at h
    | true =>
      simp only [insertParticipants, h1, h2, Bool.not_true, Bool.false_eq_true,
        if_false] at h
      by_cases h3 :
          ((db.participants ++ rows).map (fun r => (r.conversation_id, r.user_id))).Nodup
      · rw [if_pos h3] at h
        exact (Except.ok.injEq _ _ |>.mp h).symm
      · rw [if_neg h3] at h
        cases h

/-- A successful participant insert had distinct composite keys across
the old rows and the batch. -/
theorem insertParticipants_ok_nodup (db : DB) (rows : List Participant) (db2 : DB)
    (h : insertParticipants db rows = .ok db2) :
    ((db.participants ++ rows).map (fun r => (r.conversation_id, r.user_id))).Nodup := by
  cases h1 : rows.all (fun r => db.conversations.any (fun c => c.id == r.conversation_id)) with
  | false => simp [insertParticipants, h1] at h
  | true =>
    cases h2 : rows.all (fun r => db.profiles.any (fun p => p.id == r.user_id)) with
    | false => simp [insertParticipants, h1, h2] at h
    | true =>
      simp only [insertParticipants, h1, h2, Bool.not_true, Bool.false_eq_true,
        if_false] at h
      by_cases h3 :
          ((db.participants ++ rows).map (fun r => (r.conversation_id, r.user_id))).Nodup
      · exact h3
      · rw [if_neg h3] at h
        cases h

/-- The intermediate state after the conversation-row insert of
createConversation, the first of its two statements. -/
def convInsertState (db : DB) (uid : UserId) (ps : List UserId) : DB :=
  { db with
    conversations := db.conversations ++
      [⟨db.nextConvId, decide ((ps ++ [uid]).length > 2), db.clock, db.clock⟩]
    nextConvId := db.nextConvId + 1
    clock := db.clock + 1 }

/-- createConversation with a resolved caller unfolds to the
conversation-row insert followed by the participant batch insert. -/
theorem createConversation_eq (db : DB) (uid : UserId) (ps : List UserId) :
    createConversation db (some uid) ps =
      match insertParticipants (convInsertState db uid ps)
          ((ps ++ [uid]).map (fun u => ⟨db.nextConvId, u⟩)) with
      | .error e => (convInsertState db uid ps, .error e)
      | .ok db2 => (db2, .ok db.nextConvId) := by
  rfl

/-- C6 (amended): after a message insert the updated_at of the owning
conversation is set to the current time, every other conversation row is
untouched, and no other write operation mutates the updated_at of an
existing conversation row; consequently the new updated_at is at least
the creation timestamp of every prior message of the conversation
whenever those timestamps do not exceed the current time (which can
fail only for client-supplied future creation times, as the
counterexample shows). -/
theorem C6_timestamp_trigger :
    (∀ (db : DB) (auth : Option UserId) (d : MessageDraft) (row : Message) (db2 : DB),
      insertMessage db auth d = .ok (row, db2) →
      (∀ c ∈ db.conversations,
        (c.id = d.conversation_id → { c with updated_at := db.clock } ∈ db2.conversations) ∧
        (c.id ≠ d.conversation_id → c ∈ db2.conversations)) ∧
      (∀ c ∈ db2.conversations, c.id = d.conversation_id →
        c.updated_at = db.clock ∧
        (∀ m ∈ db.messages, m.conversation_id = d.conversation_id →
          m.created_at ≤ db.clock → m.created_at ≤ c.updated_at))) ∧
    (∀ (db : DB) (p : Profile) (db2 : DB), insertProfile db p = .ok db2 →
      db2.conversations = db.conversations) ∧
    (∀ (db : DB) (caller : UserId) (u fn : String) (db2 : DB),
      updateProfile db caller u fn = .ok db2 → db2.conversations = db.conversations) ∧
    (∀ (db : DB) (rows : List Participant) (db2 : DB),
      insertParticipants db rows = .ok db2 → db2.conversations = db.conversations) ∧
    (∀ (db : DB) (auth : Option UserId) (ps : List UserId),
      ∀ c ∈ db.conversations, c ∈ (createConversation db auth ps).1.conversations) := by
  refine ⟨?_, ?_, ?_, ?_, ?_⟩
  · intro db auth d row db2 h
    cases auth with
    | none => simp [insertMessage] at h
    | some u =>
      cases hp : isParticipant db u d.conversation_id with
      | false => simp [insertMessage, hp] at h
      | true =>
        cases hcv : db.conversations.any (fun c => c.id == d.conversation_id) with
        | false => simp [insertMessage, hp, hcv] at h
        | true =>
          cases hpr : db.profiles.any (fun p => p.id == d.user_id) with
          | false => simp [insertMessage, hp, hcv, hpr] at h
          | true =>
            simp only [insertMessage, hp, hcv, hpr, Bool.not_true, Bool.false_eq_true,
              if_false, Except.ok.injEq, Prod.mk.injEq] at h
            have hconv : db2.conversations = db.conversations.map (fun c =>
                if c.id == d.conversation_id then { c with updated_at := db.clock } else c) := by
              rw [← h.2]
            constructor
            · intro c hc
              constructor
              · intro hid
                rw [hconv]
                refine List.mem_map.mpr ⟨c, hc, ?_⟩
                simp [hid]
              · intro hid
                rw [hconv]
                refine List.mem_map.mpr ⟨c, hc, ?_⟩
                simp [hid]
            · intro c hc hid
              rw [hconv] at hc
              rcases List.mem_map.mp hc with ⟨c0, hc0, hfc⟩
              by_cases h0 : c0.id = d.conversation_id
              · have : c = { c0 with updated_at := db.clock } := by
                  rw [← hfc]; simp [h0]
                subst this
                exact ⟨rfl, fun m _ _ hle => hle⟩
              · exfalso
                have : c = c0 := by rw [← hfc]; simp [h0]
                subst this
                exact h0 hid
  · exact insertProfile_conversations
  · exact updateProfile_conversations
  · intro db rows db2 h
    rw [insertParticipants_ok db rows db2 h]
  · intro db auth ps c hc
    cases auth with
    | none => exact hc
    | some uid =>
      rw [createConversation_eq]
      cases hins : insertParticipants (convInsertState db uid ps)
          ((ps ++ [uid]).map (fun u => ⟨db.nextConvId, u⟩)) with
      | error e =>
        exact List.mem_append_left _ hc
      | ok db2 =>
        have := insertParticipants_ok _ _ _ hins
        rw [this]
        exact List.mem_append_left _ hc

/-- The state dbTwoMsgs after a third message is appended at clock 3
with a server-assigned creation time. -/
def dbTwoMsgsAfter : DB := {
  profiles := [⟨0, "alice", "Alice"⟩]
  conversations := [⟨10, false, 0, 3⟩]
  participants := [⟨10, 0⟩]
  messages := [⟨0, 10, 0, "m1", .text, false, 1⟩, ⟨1, 10, 0, "m2", .text, false, 2⟩,
    ⟨2, 10, 0, "m3", .text, false, 3⟩]
  clock := 4
  nextConvId := 11
  nextMsgId := 3 }

/-- Witness for C6: the amended theorem applied to a concrete insert
whose prior messages are all dated at or before the current time. -/
theorem C6_timestamp_trigger_witness :
    (∀ c ∈ dbTwoMsgs.conversations,
      (c.id = 10 → { c with updated_at := 3 } ∈ dbTwoMsgsAfter.conversations) ∧
      (c.id ≠ 10 → c ∈ dbTwoMsgsAfter.conversations)) ∧
    (∀ c ∈ dbTwoMsgsAfter.conversations, c.id = 10 →
      c.updated_at = 3 ∧
      (∀ m ∈ dbTwoMsgs.messages, m.conversation_id = 10 →
        m.created_at ≤ 3 → m.created_at ≤ c.updated_at)) :=
  C6_timestamp_trigger.1 dbTwoMsgs (some 0) ⟨10, 0, "m3", .text, none⟩
    ⟨2, 10, 0, "m3", .text, false, 3⟩ dbTwoMsgsAfter (by rfl)

/-! ## C4 — directory membership and ordering -/

/-- C4: for an authenticated caller the directory query returns exactly
the conversations the caller participates in — a conversation appears
in the result if and only if it is a stored conversation and the caller
is one of its participants — ordered by update timestamp descending. -/
theorem C4_directory_membership :
    ∀ (db : DB) (u : UserId),
      ∃ vs, fetchConversations db (some u) = .ok vs ∧
        (∀ c : Conversation,
          (∃ v ∈ vs, v.conv = c) ↔
            (c ∈ db.conversations ∧ isParticipant db u c.id = true)) ∧
        vs.Pairwise (fun a b => b.conv.updated_at ≤ a.conv.updated_at) := by
  intro db u
  simp only [fetchConversations]
  refine ⟨_, rfl, ?_, ?_⟩
  · intro c
    constructor
    · rintro ⟨v, hv, hvc⟩
      rcases List.mem_map.mp hv with ⟨c2, hc2, hvc2⟩
      have hc2c : c2 = c := by rw [← hvc, ← hvc2]
      subst hc2c
      have hmem := (List.mem_insertionSort _).mp hc2
      exact ⟨(List.mem_filter.mp hmem).1, (List.mem_filter.mp hmem).2⟩
    · rintro ⟨hcm, hcp⟩
      refine ⟨⟨c, convParticipantProfiles db c.id,
        db.messages.filter (fun m => m.conversation_id == c.id)⟩, ?_, rfl⟩
      apply List.mem_map_of_mem
      exact (List.mem_insertionSort _).mpr (List.mem_filter.mpr ⟨hcm, hcp⟩)
  · haveI : IsTotal Conversation (fun a b => b.updated_at ≤ a.updated_at) :=
      ⟨fun a b => Nat.le_total b.updated_at a.updated_at⟩
    haveI : IsTrans Conversation (fun a b => b.updated_at ≤ a.updated_at) :=
      ⟨fun a b c hab hbc => le_trans hbc hab⟩
    have hs := List.sorted_insertionSort (fun a b => b.updated_at ≤ a.updated_at)
      (db.conversations.filter (fun c => isParticipant db u c.id))
    exact List.pairwise_map.mpr hs

/-- Witness for C4: the theorem instantiated at the concrete state
dbTwoMsgs and caller 0. -/
theorem C4_directory_membership_witness :
    ∃ vs, fetchConversations dbTwoMsgs (some 0) = .ok vs ∧
      (∀ c : Conversation,
        (∃ v ∈ vs, v.conv = c) ↔
          (c ∈ dbTwoMsgs.conversations ∧ isParticipant dbTwoMsgs 0 c.id = true)) ∧
      vs.Pairwise (fun a b => b.conv.updated_at ≤ a.conv.updated_at) :=
  C4_directory_membership dbTwoMsgs 0

/-! ## C7 — group flag on conversation creation -/

/-- A state with three profiles, no conversations. -/
def dbThreeProfiles : DB := {
  profiles := [⟨0, "ann", "Ann"⟩, ⟨1, "ben", "Ben"⟩, ⟨2, "cara", "Cara"⟩]
  conversations := []
  participants := []
  messages := []
  clock := 0
  nextConvId := 10
  nextMsgId := 0 }

/-- C7 counterexample. createConversation appends the caller to the
given ids, so the call with participant ids [1, 2] made by caller 0
succeeds with a membership of three and a group flag of true — the
claimed scenario that participants [A, B] yield group flag false is
wrong for a caller distinct from A and B (and when the caller is one of
them the duplicated participant row makes the call fail instead). -/
theorem C7_counterexample :
    (createConversation dbThreeProfiles (some 0) [1, 2]).2 = .ok 10 ∧
    ((createConversation dbThreeProfiles (some 0) [1, 2]).1.conversations.find?
      (fun c => c.id == 10)).map (fun c => c.is_group) = some true :=
  ⟨rfl, rfl⟩

/-- C7 (amended): every successful createConversation call resolved the
caller, returns the identifier of the inserted conversation row, the
caller plus the given ids are pairwise distinct (a duplicate would
violate the composite primary key), every one of them is inserted as a
participant, and the group flag is true exactly when the resulting
membership exceeds two. -/
theorem C7_group_flag :
    ∀ (db : DB) (auth : Option UserId) (ps : List UserId) (db2 : DB) (cid : ConvId),
      createConversation db auth ps = (db2, .ok cid) →
      ∃ u, auth = some u ∧ cid = db.nextConvId ∧ (ps ++ [u]).Nodup ∧
        (∃ c ∈ db2.conversations, c.id = cid ∧
          c.is_group = decide (2 < (ps ++ [u]).toFinset.card)) ∧
        (∀ v ∈ ps ++ [u], isParticipant db2 v cid = true) := by
  intro db auth ps db2 cid h
  cases auth with
  | none => simp [createConversation] at h
  | some uid =>
    rw [createConversation_eq] at h
    cases hins : insertParticipants (convInsertState db uid ps)
        ((ps ++ [uid]).map (fun u => ⟨db.nextConvId, u⟩)) with
    | error e => rw [hins] at h; simp at h
    | ok dbP =>
      rw [hins] at h
      have hdb2 : dbP = db2 := congrArg Prod.fst h
      have hcid : cid = db.nextConvId := by
        have := congrArg Prod.snd h
        simp only [Except.ok.injEq] at this
        exact this.symm
      have hP := insertParticipants_ok _ _ _ hins
      have hnd := insertParticipants_ok_nodup _ _ _ hins
      have hndRows : (ps ++ [uid]).Nodup := by
        rw [List.map_append] at hnd
        have h2 := hnd.of_append_right
        rw [List.map_map] at h2
        exact h2.of_map _
      have hcard : (ps ++ [uid]).toFinset.card = (ps ++ [uid]).length :=
        List.toFinset_card_of_nodup hndRows
      refine ⟨uid, rfl, hcid, hndRows, ?_, ?_⟩
      · refine ⟨⟨db.nextConvId, decide ((ps ++ [uid]).length > 2), db.clock, db.clock⟩,
          ?_, hcid.symm, ?_⟩
        · rw [← hdb2, hP]
          exact List.mem_append_right _ (List.mem_singleton_self _)
        · rw [hcard]
      · intro v hv
        have hrow : (⟨db.nextConvId, v⟩ : Participant) ∈
            (ps ++ [uid]).map (fun u => (⟨db.nextConvId, u⟩ : Participant)) :=
          List.mem_map_of_mem _ hv
        rw [← hdb2, hP]
        simp only [isParticipant, List.any_eq_true]
        refine ⟨⟨db.nextConvId, v⟩, List.mem_append_right _ hrow, ?_⟩
        simp [hcid]

/-- The state reached by creating a two-member conversation between
caller 0 and profile 1 on dbThreeProfiles. -/
def dbPairConv : DB := {
  profiles := [⟨0, "ann", "Ann"⟩, ⟨1, "ben", "Ben"⟩, ⟨2, "cara", "Cara"⟩]
  conversations := [⟨10, false, 0, 0⟩]
  participants := [⟨10, 1⟩, ⟨10, 0⟩]
  messages := []
  clock := 2
  nextConvId := 11
  nextMsgId := 0 }

/-- Witness for C7: the amended theorem applied to the successful
two-member creation, whose group flag is false. -/
theorem C7_group_flag_witness :
    ∃ u, (some 0 : Option UserId) = some u ∧ (10 : ConvId) = dbThreeProfiles.nextConvId ∧
      (([1] : List UserId) ++ [u]).Nodup ∧
      (∃ c ∈ dbPairConv.conversations, c.id = 10 ∧
        c.is_group = decide (2 < (([1] : List UserId) ++ [u]).toFinset.card)) ∧
      (∀ v ∈ ([1] : List UserId) ++ [u], isParticipant dbPairConv v 10 = true) :=
  C7_group_flag dbThreeProfiles (some 0) [1] dbPairConv 10 (by rfl)

/-! ## C8 — failure of conversation creation -/

/-- C8: when the caller cannot be resolved the call fails with the
No-user error and changes nothing; and whenever the call fails after
any insert was rejected, no directory view of any caller contains the
new conversation identifier — the orphaned conversation row has no
participant rows, so the read policy hides it from everyone (assuming
no pre-existing participant row already referenced the fresh id). -/
theorem C8_create_failure :
    (∀ (db : DB) (ps : List UserId), createConversation db none ps = (db, .error .noUser)) ∧
    (∀ (db : DB) (u : UserId) (ps : List UserId) (db2 : DB) (e : DBError),
      createConversation db (some u) ps = (db2, .error e) →
      (∀ p ∈ db.participants, p.conversation_id ≠ db.nextConvId) →
      ∀ (w : UserId) (vs : List ConversationView),
        fetchConversations db2 (some w) = .ok vs →
        ∀ v ∈ vs, v.conv.id ≠ db.nextConvId) := by
  constructor
  · intro db ps
    rfl
  · intro db u ps db2 e h hfresh w vs hf v hv
    rw [createConversation_eq] at h
    cases hins : insertParticipants (convInsertState db u ps)
        ((ps ++ [u]).map (fun x => ⟨db.nextConvId, x⟩)) with
    | ok dbP => rw [hins] at h; simp at h
    | error e2 =>
      rw [hins] at h
      have hdb2 : convInsertState db u ps = db2 := congrArg Prod.fst h
      simp only [fetchConversations, Except.ok.injEq] at hf
      subst hf
      rcases List.mem_map.mp hv with ⟨c, hcmem, hvc⟩
      have hcvis : c ∈ db2.conversations.filter (fun c => isParticipant db2 w c.id) :=
        (List.mem_insertionSort _).mp hcmem
      have hpart : isParticipant db2 w c.id = true := (List.mem_filter.mp hcvis).2
      simp only [isParticipant, List.any_eq_true, Bool.and_eq_true, beq_iff_eq] at hpart
      rcases hpart with ⟨p, hpmem, hpc, _⟩
      have hpold : p ∈ db.participants := by
        rw [← hdb2] at hpmem
        exact hpmem
      intro hvid
      apply hfresh p hpold
      rw [hpc]
      have hconv : v.conv = c := by rw [← hvc]
      rw [← hconv]
      exact hvid

/-- Witness for C8: the unresolved-caller branch, and the failure
branch at a concrete call naming the nonexistent profile 5, after which
the directory of caller 0 is empty. -/
theorem C8_create_failure_witness :
    createConversation dbThreeProfiles none [] = (dbThreeProfiles, .error .noUser) ∧
    (∀ v ∈ ([] : List ConversationView), v.conv.id ≠ dbThreeProfiles.nextConvId) :=
  ⟨C8_create_failure.1 dbThreeProfiles [],
    C8_create_failure.2 dbThreeProfiles 0 [5] (convInsertState dbThreeProfiles 0 [5])
      .fkViolation (by rfl) (by intro p hp; simp [dbThreeProfiles] at hp) 0 []
      (by rfl)⟩

/-! ## C3 — send followed by fetch -/

/-- A state whose conversation 10 already holds a message with content
hi, five ticks before the present. -/
def dbDupMsg : DB := {
  profiles := [⟨0, "alice", "Alice"⟩]
  conversations := [⟨10, false, 0, 0⟩]
  participants := [⟨10, 0⟩]
  messages := [⟨0, 10, 0, "hi", .text, false, 0⟩]
  clock := 5
  nextConvId := 11
  nextMsgId := 1 }

/-- C3 counterexample. Sending a draft whose content hi duplicates an
existing message of the conversation makes the subsequent fetch return
two messages with that content, not exactly one; and because the send
path supplies a client-side created_at (here 99), the timestamp of the stored row
is the value the client chose, not a server-assigned one (the clock
reads 5). -/
theorem C3_counterexample :
    ((fetchMessages
        (sendMessage dbDupMsg (some 0) ⟨[], false, none⟩ ⟨10, 0, "hi", .text, some 99⟩).1
        (some 0) 10).countP (fun m => m.content == "hi")) = 2 ∧
    (∀ m ∈ (sendMessage dbDupMsg (some 0) ⟨[], false, none⟩
        ⟨10, 0, "hi", .text, some 99⟩).2.messages,
      m.created_at = 99 ∧ m.created_at ≠ dbDupMsg.clock) := by
  decide

/-- C3 (amended): for every accepted send, the store appends exactly
the persisted row (which carries the content of the draft, a fresh
server-assigned identifier, and the server clock as timestamp whenever
the draft omits one); the subsequent fetch of the conversation contains
that row exactly once, contains a message with the content of the draft
exactly once provided no prior message of the conversation had that
content, returns precisely the messages of the conversation, and is ordered
by creation time ascending. -/
theorem C3_send_fetch_round_trip :
    ∀ (db : DB) (auth : Option UserId) (st : MessageStore) (d : MessageDraft)
      (row : Message) (db2 : DB),
      insertMessage db auth d = .ok (row, db2) →
      (∀ m ∈ db.messages, m.id < db.nextMsgId) →
      sendMessage db auth st d = (db2, { st with messages := st.messages ++ [row] }) ∧
      row.content = d.content ∧ row.id = db.nextMsgId ∧
      (d.created_at = none → row.created_at = db.clock) ∧
      (fetchMessages db2 auth d.conversation_id).countP (fun m => m.id == row.id) = 1 ∧
      (db.messages.countP (fun m =>
          m.conversation_id == d.conversation_id && m.content == d.content) = 0 →
        (fetchMessages db2 auth d.conversation_id).countP
          (fun m => m.content == d.content) = 1) ∧
      (∀ m : Message, m ∈ fetchMessages db2 auth d.conversation_id ↔
        (m ∈ db2.messages ∧ m.conversation_id = d.conversation_id)) ∧
      (fetchMessages db2 auth d.conversation_id).Pairwise
        (fun a b => a.created_at ≤ b.created_at) := by
  intro db auth st d row db2 h hfresh
  cases auth with
  | none => simp [insertMessage] at h
  | some u =>
    obtain ⟨hp, hrow, hdb2⟩ := insertMessage_ok_spec db u d row db2 h
    have hpart2 : ∀ (x : UserId) (cid : ConvId),
        isParticipant db2 x cid = isParticipant db x cid := by
      intro x cid
      rw [hdb2]
      rfl
    have hmsgs2 : db2.messages = db.messages ++ [row] := by rw [hdb2]
    have hfetch : fetchMessages db2 (some u) d.conversation_id =
        List.insertionSort (fun a b => a.created_at ≤ b.created_at)
          ((db.messages ++ [row]).filter (fun m =>
            m.conversation_id == d.conversation_id &&
            isParticipant db2 u m.conversation_id)) := by
      simp only [fetchMessages, hmsgs2]
    have hperm := List.perm_insertionSort (fun a b : Message => a.created_at ≤ b.created_at)
      ((db.messages ++ [row]).filter (fun m =>
        m.conversation_id == d.conversation_id &&
        isParticipant db2 u m.conversation_id))
    have hrowconv : row.conversation_id = d.conversation_id := by rw [hrow]
    have hrowid : row.id = db.nextMsgId := by rw [hrow]
    have hProw : (row.conversation_id == d.conversation_id &&
        isParticipant db2 u row.conversation_id) = true := by
      rw [hrowconv, hpart2]
      simp [hp]
    refine ⟨?_, ?_, hrowid, ?_, ?_, ?_, ?_, ?_⟩
    · simp only [sendMessage, h]
    · rw [hrow]
    · intro hn
      rw [hrow]
      simp [hn]
    · rw [hfetch, hperm.countP_eq, List.countP_filter, List.countP_append,
        List.countP_singleton]
      have hold : db.messages.countP (fun m => (m.id == row.id) &&
          (m.conversation_id == d.conversation_id &&
            isParticipant db2 u m.conversation_id)) = 0 := by
        rw [List.countP_eq_zero]
        intro m hm hcontra
        have hid : m.id == row.id := (Bool.and_eq_true_iff.mp hcontra).1
        have : m.id = row.id := by simpa using hid
        have hlt := hfresh m hm
        rw [hrowid] at this
        exact absurd this (Nat.ne_of_lt hlt)
      rw [hold, hProw]
      simp [hrowid]
    · intro hzero
      rw [hfetch, hperm.countP_eq, List.countP_filter, List.countP_append,
        List.countP_singleton]
      have hnone := List.countP_eq_zero.mp hzero
      have hold : db.messages.countP (fun m => (m.content == d.content) &&
          (m.conversation_id == d.conversation_id &&
            isParticipant db2 u m.conversation_id)) = 0 := by
        rw [List.countP_eq_zero]
        intro m hm hcontra
        rcases Bool.and_eq_true_iff.mp hcontra with ⟨hcont, hrest⟩
        have hconv := (Bool.and_eq_true_iff.mp hrest).1
        exact hnone m hm (by rw [Bool.and_eq_true]; exact ⟨hconv, hcont⟩)
      have hcrow : (row.content == d.content) = true := by
        rw [hrow]
        simp
      rw [hold, hProw, hcrow]
      simp
    · intro m
      rw [hfetch]
      rw [List.mem_insertionSort _, List.mem_filter, ← hmsgs2]
      constructor
      · rintro ⟨hm, hpred⟩
        rcases Bool.and_eq_true_iff.mp hpred with ⟨hconv, _⟩
        exact ⟨hm, by simpa using hconv⟩
      · rintro ⟨hm, hconv⟩
        refine ⟨hm, ?_⟩
        rw [Bool.and_eq_true]
        constructor
        · simpa using hconv
        · rw [hconv, hpart2]
          exact hp
    · rw [hfetch]
      haveI : IsTotal Message (fun a b => a.created_at ≤ b.created_at) :=
        ⟨fun a b => Nat.le_total a.created_at b.created_at⟩
      haveI : IsTrans Message (fun a b => a.created_at ≤ b.created_at) :=
        ⟨fun a b c hab hbc => le_trans hab hbc⟩
      exact List.sorted_insertionSort (fun a b : Message => a.created_at ≤ b.created_at) _

/-- The state dbDupMsg after caller 0 sends the draft content yo with
no client timestamp. -/
def dbDupMsg2 : DB := {
  profiles := [⟨0, "alice", "Alice"⟩]
  conversations := [⟨10, false, 0, 5⟩]
  participants := [⟨10, 0⟩]
  messages := [⟨0, 10, 0, "hi", .text, false, 0⟩, ⟨1, 10, 0, "yo", .text, false, 5⟩]
  clock := 6
  nextConvId := 11
  nextMsgId := 2 }

/-- Witness for C3: the amended theorem applied to a concrete send of
the fresh content yo on dbDupMsg. -/
theorem C3_send_fetch_round_trip_witness :
    sendMessage dbDupMsg (some 0) ⟨[], false, none⟩ ⟨10, 0, "yo", .text, none⟩ =
      (dbDupMsg2, ⟨[⟨1, 10, 0, "yo", .text, false, 5⟩], false, none⟩) ∧
    (⟨1, 10, 0, "yo", .text, false, 5⟩ : Message).content = "yo" ∧
    (⟨1, 10, 0, "yo", .text, false, 5⟩ : Message).id = dbDupMsg.nextMsgId ∧
    ((⟨10, 0, "yo", .text, none⟩ : MessageDraft).created_at = none →
      (⟨1, 10, 0, "yo", .text, false, 5⟩ : Message).created_at = dbDupMsg.clock) ∧
    (fetchMessages dbDupMsg2 (some 0) 10).countP (fun m => m.id == 1) = 1 ∧
    (dbDupMsg.messages.countP (fun m =>
        m.conversation_id == 10 && m.content == "yo") = 0 →
      (fetchMessages dbDupMsg2 (some 0) 10).countP (fun m => m.content == "yo") = 1) ∧
    (∀ m : Message, m ∈ fetchMessages dbDupMsg2 (some 0) 10 ↔
      (m ∈ dbDupMsg2.messages ∧ m.conversation_id = 10)) ∧
    (fetchMessages dbDupMsg2 (some 0) 10).Pairwise
      (fun a b => a.created_at ≤ b.created_at) :=
  C3_send_fetch_round_trip dbDupMsg (some 0) ⟨[], false, none⟩ ⟨10, 0, "yo", .text, none⟩
    ⟨1, 10, 0, "yo", .text, false, 5⟩ dbDupMsg2 (by rfl) (by decide)

end MessagingApp
